import Mathlib

/-!
Verification of the resilient-delivery core of the ErrorReportReactSDK
(client-side error reporting SDK).

Each service class of the source (CircuitBreaker, RateLimiter, RetryManager,
OfflineManager, QuotaManager, ErrorReporter, CompressionService,
SecurityValidator) is shallowly embedded: class fields become structure
fields, methods become pure state-passing functions, `Date.now()` becomes an
explicit `now` argument, and runtime collaborators (network, storage, the
browser's gzip streams) become oracle parameters.  All timestamps are `Int`
(JavaScript numbers used as millisecond clocks), all counters are `Nat`.
-/

namespace SDK

/-! ## Shared helpers: JavaScript string primitives -/

/-- Lowercase a character the way JavaScript `toLowerCase` does for ASCII. -/
def jsToLower (c : Char) : Char :=
  if 'A' ≤ c ∧ c ≤ 'Z' then Char.ofNat (c.toNat + 32) else c

/-- JavaScript `String.prototype.includes`: does `p` occur as a contiguous
substring of `s` (as character lists)? -/
def hasSubList (p : List Char) : List Char → Bool
  | [] => p == []
  | c :: rest => p == (c :: rest).take p.length || hasSubList p rest

/-- Substring test on strings, mirroring `s.includes(p)`. -/
def strIncludes (s p : String) : Bool :=
  hasSubList p.data s.data

/-- Lowercased substring test, mirroring `s.toLowerCase().includes(p)`. -/
def strIncludesLower (s p : String) : Bool :=
  hasSubList p.data (s.data.map jsToLower)

/-! ## CircuitBreaker (src/src/services/CircuitBreaker.ts)

State machine with modes CLOSED / OPEN / HALF_OPEN.  `isCallAllowed` both
answers and mutates (the lazy OPEN → HALF_OPEN transition), so it returns a
pair.  `Date.now()` is the explicit `now` argument. -/

inductive CBMode
  | CLOSED
  | OPEN
  | HALF_OPEN
  deriving DecidableEq, Repr

structure CBConfig where
  failureThreshold : Nat
  timeout : Int
  deriving Repr

structure CBState where
  mode : CBMode
  failureCount : Nat
  successCount : Nat
  lastFailureTime : Option Int
  nextRetryTime : Option Int
  deriving DecidableEq, Repr

/-- The state a fresh `CircuitBreaker` starts in, also produced by `reset()`. -/
def CBState.initial : CBState :=
  { mode := .CLOSED, failureCount := 0, successCount := 0,
    lastFailureTime := none, nextRetryTime := none }

/-- `CircuitBreaker.isCallAllowed()`: returns the answer and the
(possibly updated) state; in `OPEN`, transitions to `HALF_OPEN` once
`now >= nextRetryTime`. -/
def isCallAllowed (now : Int) (s : CBState) : Bool × CBState :=
  match s.mode with
  | .CLOSED => (true, s)
  | .OPEN =>
    match s.nextRetryTime with
    | some nrt =>
      if now ≥ nrt then (true, { s with mode := .HALF_OPEN }) else (false, s)
    | none => (false, s)
  | .HALF_OPEN => (true, s)

/-- `CircuitBreaker.tripCircuit()`. -/
def tripCircuit (cfg : CBConfig) (now : Int) (s : CBState) : CBState :=
  { s with mode := .OPEN, nextRetryTime := some (now + cfg.timeout) }

/-- `CircuitBreaker.onSuccess()`. -/
def onSuccess (s : CBState) : CBState :=
  let s := { s with successCount := s.successCount + 1 }
  if s.mode = .HALF_OPEN then CBState.initial else s

/-- `CircuitBreaker.onFailure()`. -/
def onFailure (cfg : CBConfig) (now : Int) (s : CBState) : CBState :=
  let s := { s with failureCount := s.failureCount + 1,
                    lastFailureTime := some now }
  if s.mode = .HALF_OPEN then tripCircuit cfg now s
  else if s.failureCount ≥ cfg.failureThreshold then tripCircuit cfg now s
  else s

/-- Iterated `onFailure` at a list of times (consecutive failures). -/
def onFailures (cfg : CBConfig) (ts : List Int) (s : CBState) : CBState :=
  ts.foldl (fun st t => onFailure cfg t st) s

/-! ## RateLimiter (src/src/services/RateLimiter.ts)

Fixed-window counter keyed by string; the `requests` map becomes an
association list, `Date.now()` the explicit `now` argument.  `canMakeRequest`
returns the answer and the updated map. -/

structure RLConfig where
  maxRequests : Nat
  windowMs : Int
  duplicateErrorWindow : Int
  deriving Repr

structure RequestInfo where
  count : Nat
  resetTime : Int
  deriving DecidableEq, Repr

/-- The `requests` map of the `RateLimiter`. -/
def RLState := List (String × RequestInfo)

instance : DecidableEq RLState := by
  unfold RLState
  infer_instance

/-- `Map.set`: replace the entry for `k` in place, or append it. -/
def setEntry (k : String) (v : RequestInfo) : RLState → RLState
  | [] => [(k, v)]
  | (k', v') :: rest =>
    if k = k' then (k, v) :: rest else (k', v') :: setEntry k v rest

/-- `RateLimiter.canMakeRequest(key)`: fresh/expired window admits (and seeds
`count = 1`) unless `maxRequests === 0`; a live window admits while
`count < maxRequests`, incrementing the stored count. -/
def canMakeRequest (cfg : RLConfig) (now : Int) (key : String) (st : RLState) :
    Bool × RLState :=
  match List.lookup key st with
  | some ri =>
    if now ≥ ri.resetTime then
      if cfg.maxRequests = 0 then (false, st)
      else (true, setEntry key ⟨1, now + cfg.windowMs⟩ st)
    else if ri.count ≥ cfg.maxRequests then (false, st)
    else (true, setEntry key ⟨ri.count + 1, ri.resetTime⟩ st)
  | none =>
    if cfg.maxRequests = 0 then (false, st)
    else (true, setEntry key ⟨1, now + cfg.windowMs⟩ st)

/-- A sequence of `canMakeRequest` calls on one key, collecting the answers. -/
def runCalls (cfg : RLConfig) (key : String) :
    List Int → RLState → List Bool × RLState
  | [], st => ([], st)
  | t :: ts, st =>
    let r := canMakeRequest cfg t key st
    let rs := runCalls cfg key ts r.2
    (r.1 :: rs.1, rs.2)

/-- No live window for `key` at time `t0` (entry absent or expired). -/
def freshFor (t0 : Int) (key : String) (st : RLState) : Bool :=
  match List.lookup key st with
  | none => true
  | some ri => t0 ≥ ri.resetTime

/-! ## RetryManager (src/unnamed part with `shouldRetryError`)

A thrown JavaScript error is modelled as `Option JsError` (`none` is a falsy
throw, caught by `if (!error) return false`).  The async operation becomes a
function from the attempt index (= the per-id retry count at that attempt) to
its outcome; the recursion of `executeWithRetry` on the retry-count map is
replayed structurally on `maxRetries - currentRetryCount`.  Delays and jitter
only schedule the next attempt and do not affect which attempts happen. -/

structure JsError where
  status : Option Nat
  code : Option String
  message : Option String
  deriving DecidableEq, Repr

/-- Value of the leading decimal digit run, as `parseInt` reads it. -/
def digitsToNat (ds : List Char) : Nat :=
  ds.foldl (fun acc c => acc * 10 + (c.toNat - 48)) 0

/-- Match the regular expression `HTTP (\d+):` at the head of the list. -/
def httpMatchAt : List Char → Option Nat
  | 'H' :: 'T' :: 'T' :: 'P' :: ' ' :: rest =>
    let ds := rest.takeWhile Char.isDigit
    if ds.isEmpty then none
    else
      match rest.dropWhile Char.isDigit with
      | ':' :: _ => some (digitsToNat ds)
      | _ => none
  | _ => none

/-- Leftmost match of `HTTP (\d+):` anywhere in the list. -/
def httpScan : List Char → Option Nat
  | [] => none
  | c :: r =>
    match httpMatchAt (c :: r) with
    | some n => some n
    | none => httpScan r

/-- `error.message.match(/HTTP (\d+):/)`, yielding the captured status. -/
def httpStatusOf (s : String) : Option Nat :=
  httpScan s.data

/-- The network/timeout default at the end of `shouldRetryError`. -/
def retryFallback (err : JsError) : Bool :=
  err.code == some "NETWORK_ERROR" || err.code == some "TIMEOUT" ||
  (match err.message with
   | some m => strIncludes m "network" || strIncludes m "timeout"
   | none => false)

/-- `RetryManager.shouldRetryError(error)`: 401/403 (by field or by message)
and unauthorized/forbidden messages are non-retryable; an `HTTP n:` message
is retryable iff `n ≥ 500` or `n = 429` or `n = 408`; network/timeout errors
are retryable; everything else defaults to NOT retryable. -/
def shouldRetryError : Option JsError → Bool
  | none => false
  | some err =>
    if err.status == some 401 || err.status == some 403 then false
    else
      match err.message with
      | some msg =>
        match httpStatusOf msg with
        | some status =>
          if status == 401 || status == 403 then false
          else decide (500 ≤ status) || status == 429 || status == 408
        | none =>
          if strIncludes msg "401" || strIncludes msg "403" ||
             strIncludesLower msg "unauthorized" ||
             strIncludesLower msg "forbidden" then false
          else retryFallback err
      | none => retryFallback err

/-- The recursion of `executeWithRetry` for one operation id: `remaining` is
`maxRetries - currentRetryCount`.  Returns the final outcome and the number
of times the operation was invoked. -/
def runRetryGo (op : Nat → Except (Option JsError) α) :
    Nat → Nat → Except (Option JsError) α × Nat
  | 0, current =>
    match op current with
    | .ok a => (.ok a, 1)
    | .error e => (.error e, 1)
  | rem + 1, current =>
    match op current with
    | .ok a => (.ok a, 1)
    | .error e =>
      if shouldRetryError e then
        let r := runRetryGo op rem (current + 1)
        (r.1, r.2 + 1)
      else (.error e, 1)

/-- `RetryManager.executeWithRetry(operation, id)` for a fresh id. -/
def executeWithRetry (maxRetries : Nat) (op : Nat → Except (Option JsError) α) :
    Except (Option JsError) α × Nat :=
  runRetryGo op maxRetries 0

/-! ## OfflineManager (src/src/services/OfflineManager.ts)

The queue is a list (oldest first), `Date.now()` the explicit `now`, and the
network outcome of each `sendReport` call an oracle predicate.  The `context`
object of an `ErrorReport` is irrelevant to queue discipline and carried as
an opaque payload. -/

structure ErrorReport where
  message : String
  stack : Option String
  type : String
  environment : String
  projectToken : String
  context : String
  deriving DecidableEq, Repr

structure QueuedReport where
  report : ErrorReport
  timestamp : Int
  attempts : Nat
  deriving DecidableEq, Repr

structure OMState where
  queue : List QueuedReport
  isOnline : Bool
  maxQueueSize : Nat
  maxAge : Int
  deriving DecidableEq, Repr

/-- JavaScript `x || d` on numbers: `0` (and `undefined`, modelled as `0`)
falls back to the default. -/
def jsOrNat (x d : Nat) : Nat := if x = 0 then d else x

/-- JavaScript `x || d` for the millisecond age. -/
def jsOrInt (x d : Int) : Int := if x = 0 then d else x

/-- The `OfflineManager` constructor: `maxQueueSize || 50` and
`maxAge || 24*60*60*1000`. -/
def mkOfflineManager (maxQueueSize : Nat) (maxAge : Int) (online : Bool) :
    OMState :=
  { queue := [], isOnline := online,
    maxQueueSize := jsOrNat maxQueueSize 50,
    maxAge := jsOrInt maxAge 86400000 }

/-- `OfflineManager.cleanupOldReports()`. -/
def cleanupOldReports (now : Int) (st : OMState) : OMState :=
  { st with queue := st.queue.filter (fun item => now - item.timestamp < st.maxAge) }

/-- `OfflineManager.queueReport(report)`: cleanup, evict the oldest entry when
full, append the new entry with `attempts = 0`. -/
def queueReport (now : Int) (r : ErrorReport) (st : OMState) : OMState :=
  let st := cleanupOldReports now st
  let q := if st.queue.length ≥ st.maxQueueSize then st.queue.drop 1 else st.queue
  { st with queue := q ++ [⟨r, now, 0⟩] }

/-- `OfflineManager.processQueue()`: no-op when offline or empty; otherwise
every queued item is attempted (second component), failures are re-queued
with `attempts + 1` while `attempts < 3`. -/
def processQueue (sendOk : QueuedReport → Bool) (st : OMState) :
    OMState × List QueuedReport :=
  if st.isOnline = false ∨ st.queue.length = 0 then (st, [])
  else
    let toProcess := st.queue
    let newQueue := toProcess.foldl
      (fun acc item =>
        if sendOk item then acc
        else if item.attempts + 1 < 3 then
          acc ++ [{ item with attempts := item.attempts + 1 }]
        else acc)
      []
    ({ st with queue := newQueue }, toProcess)

/-! ## QuotaManager (src/src/services/OfflineManager.ts, second class)

Limits follow the JavaScript truthiness of the source: a limit of `0` is
falsy, so its check is skipped.  The local-calendar computations of
`getDayStartTimestamp` / `getMonthStartTimestamp` / `getNextMonthlyReset`
(which go through `Date`) are abstracted as a calendar parameter. -/

structure QuotaLimits where
  dailyLimit : Nat
  monthlyLimit : Nat
  payloadSizeLimit : Nat
  burstLimit : Nat
  burstWindowMs : Int
  deriving Repr

structure QuotaUsage where
  dailyUsed : Nat
  monthlyUsed : Nat
  burstUsed : Nat
  lastResetDaily : Int
  lastResetMonthly : Int
  lastResetBurst : Int
  totalBytesUsed : Nat
  deriving DecidableEq, Repr

/-- Local-calendar oracle: `dayStart t` is midnight of the day containing
`t`, `monthStart t` the first of its month, `nextMonthStart t` the first of
the following month (all in local time, via `Date` in the source). -/
structure Cal where
  dayStart : Int → Int
  monthStart : Int → Int
  nextMonthStart : Int → Int

/-- `QuotaManager.getNextDailyReset()`: day start of `now + 24h`. -/
def getNextDailyReset (cal : Cal) (now : Int) : Int :=
  cal.dayStart (now + 86400000)

/-- The default usage record (fresh storage), also what `loadUsageFromStorage`
yields on missing/corrupt storage. -/
def freshUsage (now : Int) : QuotaUsage :=
  { dailyUsed := 0, monthlyUsed := 0, burstUsed := 0,
    lastResetDaily := now, lastResetMonthly := now, lastResetBurst := now,
    totalBytesUsed := 0 }

/-- `QuotaManager.resetUsage()`. -/
def resetUsage (now : Int) : QuotaUsage := freshUsage now

/-- The daily block of `resetExpiredCounters` (guard `shouldResetDaily`). -/
def rollDaily (cal : Cal) (now : Int) (u : QuotaUsage) : QuotaUsage :=
  if u.lastResetDaily < cal.dayStart now then
    { u with dailyUsed := 0, lastResetDaily := cal.dayStart now } else u

/-- The monthly block of `resetExpiredCounters` (guard `shouldResetMonthly`). -/
def rollMonthly (cal : Cal) (now : Int) (u : QuotaUsage) : QuotaUsage :=
  if u.lastResetMonthly < cal.monthStart now then
    { u with monthlyUsed := 0, lastResetMonthly := cal.monthStart now } else u

/-- The burst block of `resetExpiredCounters` (guard `shouldResetBurst`). -/
def rollBurst (L : QuotaLimits) (now : Int) (u : QuotaUsage) : QuotaUsage :=
  if now - u.lastResetBurst ≥ L.burstWindowMs then
    { u with burstUsed := 0, lastResetBurst := now } else u

/-- `QuotaManager.resetExpiredCounters()`: the three blocks in order. -/
def resetExpiredCounters (cal : Cal) (L : QuotaLimits) (now : Int)
    (u : QuotaUsage) : QuotaUsage :=
  rollBurst L now (rollMonthly cal now (rollDaily cal now u))

/-- Which constraint `canSendError` reports as violated. -/
inductive Denial
  | payload (size limit : Nat)
  | daily (limit : Nat)
  | monthly (limit : Nat)
  | burst (limit : Nat)
  deriving DecidableEq, Repr

/-- The template reason strings of `canSendError`. -/
def renderDenial : Denial → String
  | .payload s l => "Payload size (" ++ toString s ++ ") exceeds limit (" ++ toString l ++ ")"
  | .daily l => "Daily limit (" ++ toString l ++ ") exceeded"
  | .monthly l => "Monthly limit (" ++ toString l ++ ") exceeded"
  | .burst l => "Burst limit (" ++ toString l ++ ") exceeded"

/-- The check sequence of `canSendError`, on the rolled-over usage:
payload size, then daily, then monthly, then burst — each skipped when its
configured limit is falsy (`0`). -/
def canSendCheck (cal : Cal) (L : QuotaLimits) (now : Int) (payloadSize : Nat)
    (u : QuotaUsage) : Option (Denial × Option Int) :=
  if payloadSize ≠ 0 ∧ L.payloadSizeLimit ≠ 0 ∧ payloadSize > L.payloadSizeLimit then
    some (.payload payloadSize L.payloadSizeLimit, none)
  else if L.dailyLimit ≠ 0 ∧ u.dailyUsed ≥ L.dailyLimit then
    some (.daily L.dailyLimit, some (getNextDailyReset cal now - now))
  else if L.monthlyLimit ≠ 0 ∧ u.monthlyUsed ≥ L.monthlyLimit then
    some (.monthly L.monthlyLimit, some (cal.nextMonthStart now - now))
  else if L.burstLimit ≠ 0 ∧ u.burstUsed ≥ L.burstLimit then
    some (.burst L.burstLimit, some (u.lastResetBurst + L.burstWindowMs - now))
  else none

structure CanSend where
  allowed : Bool
  reason : Option String
  retryAfter : Option Int
  deriving DecidableEq, Repr

/-- `QuotaManager.canSendError(payloadSize)`: rolls expired counters over,
then returns the first violated constraint (with its reason string and
`retryAfter`), or `{allowed: true}`. -/
def canSendError (cal : Cal) (L : QuotaLimits) (now : Int) (payloadSize : Nat)
    (u : QuotaUsage) : QuotaUsage × CanSend :=
  match canSendCheck cal L now payloadSize (resetExpiredCounters cal L now u) with
  | none => (resetExpiredCounters cal L now u,
      { allowed := true, reason := none, retryAfter := none })
  | some (d, retry) => (resetExpiredCounters cal L now u,
      { allowed := false, reason := some (renderDenial d), retryAfter := retry })

/-- `QuotaManager.recordErrorSent(payloadSize)`: rolls expired counters over,
then increments all three counters (and the byte count when `payloadSize` is
truthy). -/
def recordErrorSent (cal : Cal) (L : QuotaLimits) (now : Int)
    (payloadSize : Nat) (u : QuotaUsage) : QuotaUsage :=
  let u := resetExpiredCounters cal L now u
  let u := { u with dailyUsed := u.dailyUsed + 1,
                    monthlyUsed := u.monthlyUsed + 1,
                    burstUsed := u.burstUsed + 1 }
  if payloadSize ≠ 0 then
    { u with totalBytesUsed := u.totalBytesUsed + payloadSize } else u

/-- A burst of `recordErrorSent` calls at the given times. -/
def recordMany (cal : Cal) (L : QuotaLimits) (ts : List Int) (u : QuotaUsage) :
    QuotaUsage :=
  ts.foldl (fun acc t => recordErrorSent cal L t 0 acc) u

/-- Fixture calendar for witnesses: UTC-style day starts, degenerate months. -/
def calW : Cal :=
  { dayStart := fun t => t - t % 86400000,
    monthStart := fun _ => 0,
    nextMonthStart := fun t => t + 1000 }

/-- Fixture limits for the C7 witness: `dailyLimit = 2`, other checks falsy. -/
def limitsW : QuotaLimits := ⟨2, 0, 0, 0, 60000⟩

/-- Fixture limits for the C10 witness: every limit `0`. -/
def limitsZ : QuotaLimits := ⟨0, 0, 0, 0, 60000⟩

/-! ## ErrorReporter orchestration (src/unnamed ErrorReporter class)

`reportError` is modelled over an oracle for its collaborators' answers: the
two rate-limit gates, the quota gate, connectivity, offline support, and the
outcome of `executeWithRetry(sendReportDirectly)`.  A JavaScript promise that
resolves is `.ok`, one that rejects is `.error`. -/

structure ReporterCollab where
  canMakeRequest : Bool
  canReportError : Bool
  quotaAllowed : Bool
  enableOfflineSupport : Bool
  isOnline : Bool
  retryResult : Except (Option JsError) Unit
  deriving Repr

/-- How one `reportError` call is internally resolved. -/
inductive ReportOutcome
  | disabled
  | droppedRateLimit
  | droppedQuota
  | sent
  | queuedOffline
  | queuedAfterFailure
  | droppedInternal
  deriving DecidableEq, Repr

/-- `ErrorReporter.sendReport(report)`: queue when offline, otherwise send
with retry; on exhausted retries queue if offline support is enabled, else
re-throw. -/
def sendReportO (c : ReporterCollab) : Except (Option JsError) ReportOutcome :=
  if c.enableOfflineSupport = true ∧ c.isOnline = false then .ok .queuedOffline
  else
    match c.retryResult with
    | .ok _ => .ok .sent
    | .error e =>
      if c.enableOfflineSupport = true then .ok .queuedAfterFailure
      else .error e

/-- The body of the `try` block of `reportError`: rate-limit gates, quota
gate, then `sendReport` (whose rejection propagates inside the `try`). -/
def reportErrorTry (c : ReporterCollab) : Except (Option JsError) ReportOutcome :=
  if c.canMakeRequest = false ∨ c.canReportError = false then .ok .droppedRateLimit
  else if c.quotaAllowed = false then .ok .droppedQuota
  else sendReportO c

/-- `ErrorReporter.reportError(error, additionalData)`: the early return when
disabled/uninitialized, then the `try` body, with the `catch` block turning
every rejection into a resolved drop (`recordErrorDropped('other')`). -/
def reportErrorP (enabled isInitialized : Bool) (c : ReporterCollab) :
    Except (Option JsError) ReportOutcome :=
  if enabled = false ∨ isInitialized = false then .ok .disabled
  else
    match reportErrorTry c with
    | .ok o => .ok o
    | .error _ => .ok .droppedInternal

/-- The one collaborator behaviour whose `try` body rejects: online, offline
support disabled, every retry failed. -/
def collabWorst : ReporterCollab :=
  { canMakeRequest := true, canReportError := true, quotaAllowed := true,
    enableOfflineSupport := false, isOnline := true,
    retryResult := .error (some ⟨none, none, some "HTTP 503: Service Unavailable"⟩) }

/-! ## ErrorReporter.destroy() and the persisted offline queue

`destroy()` stops the cleanup interval and, when offline support is enabled,
calls `OfflineManager.clearQueue()`, which sets the in-memory queue to `[]`
AND persists that empty queue (`localStorage.setItem` of `[]`).  The
`storage` field models the parsed content of the persisted record. -/

structure ReporterDestroyState where
  cleanupInterval : Option Nat
  offlineQueue : List QueuedReport
  storage : Option (List QueuedReport)
  deriving DecidableEq, Repr

/-- `OfflineManager.clearQueue()`: empty the queue and persist it. -/
def clearQueue (st : ReporterDestroyState) : ReporterDestroyState :=
  { st with offlineQueue := [], storage := some [] }

/-- `ErrorReporter.destroy()`: clear the interval; when offline support is
enabled, `clearQueue` the offline manager. -/
def destroy (enableOfflineSupport : Bool) (st : ReporterDestroyState) :
    ReporterDestroyState :=
  let st := { st with cleanupInterval := none }
  if enableOfflineSupport then clearQueue st else st

/-! ## CompressionService (src/unnamed CompressionService class)

`compress` is `btoa ∘ concatChunks ∘ gzip ∘ utf8encode ∘ JSON.stringify` and
`decompress` reverses every stage.  The browser primitives
`CompressionStream('gzip')` / `DecompressionStream('gzip')`, `TextEncoder` /
`TextDecoder` and `JSON.stringify` / `JSON.parse` are runtime built-ins, so
they are oracle parameters with their documented inverse contracts as
hypotheses; `btoa` / `atob` (RFC 4648 base64 over a latin-1 binary string,
exactly what `arrayBufferToBase64` / `base64ToArrayBuffer` compute) are
modelled concretely and their round-trip is proved. -/

def b64Alphabet : List Char :=
  "ABCDEFGHIJKLMNOPQRSTUVWXYZabcdefghijklmnopqrstuvwxyz0123456789+/".data

/-- The base64 digit for a sextet. -/
def sextetToChar (n : Nat) : Char := b64Alphabet.getD n '?'

/-- The sextet of a base64 digit. -/
def charToSextet (c : Char) : Nat := b64Alphabet.indexOf c

/-- `btoa` of a binary string, as byte values: standard base64 with `=`
padding, three bytes per quartet of digits. -/
def encB64 : List Nat → List Char
  | [] => []
  | [b0] => [sextetToChar (b0 / 4), sextetToChar (b0 % 4 * 16), '=', '=']
  | [b0, b1] => [sextetToChar (b0 / 4), sextetToChar (b0 % 4 * 16 + b1 / 16),
                 sextetToChar (b1 % 16 * 4), '=']
  | b0 :: b1 :: b2 :: rest =>
    sextetToChar (b0 / 4) :: sextetToChar (b0 % 4 * 16 + b1 / 16) ::
    sextetToChar (b1 % 16 * 4 + b2 / 64) :: sextetToChar (b2 % 64) :: encB64 rest

/-- `atob`, on the well-formed quartet strings `btoa` produces. -/
def decB64 : List Char → List Nat
  | c0 :: c1 :: c2 :: c3 :: rest =>
    if c2 = '=' then [charToSextet c0 * 4 + charToSextet c1 / 16]
    else if c3 = '=' then
      [charToSextet c0 * 4 + charToSextet c1 / 16,
       charToSextet c1 % 16 * 16 + charToSextet c2 / 4]
    else
      (charToSextet c0 * 4 + charToSextet c1 / 16) ::
      (charToSextet c1 % 16 * 16 + charToSextet c2 / 4) ::
      (charToSextet c2 % 4 * 64 + charToSextet c3) :: decB64 rest
  | _ => []

/-- `CompressionService.arrayBufferToBase64`: binary string + `btoa`. -/
def arrayBufferToBase64 (bytes : List Nat) : String := ⟨encB64 bytes⟩

/-- `CompressionService.base64ToArrayBuffer`: `atob` + char codes. -/
def base64ToArrayBuffer (s : String) : List Nat := decB64 s.data

/-- The chunk-combining loop of `compress`/`decompress` (`reduce` over chunk
lengths plus `set` at increasing offsets = concatenation in order). -/
def joinChunks (chunks : List (List Nat)) : List Nat :=
  chunks.foldl (fun acc c => acc ++ c) []

/-- The browser stream pair `CompressionStream('gzip')` /
`DecompressionStream('gzip')`, as the chunk lists the reader yields. -/
structure GzipCodec where
  deflateChunks : List Nat → List (List Nat)
  inflateChunks : List Nat → List (List Nat)

/-- `JSON.stringify` / `JSON.parse` for the payload type (an `ErrorReport` or
an `ErrorReport[]`); a failing `JSON.parse` is `none`. -/
structure JsonCodec (α : Type) where
  stringify : α → String
  parse : String → Option α

/-- `TextEncoder` / `TextDecoder` (UTF-8). -/
structure TextCodec where
  encode : String → List Nat
  decode : List Nat → String

/-- `CompressionService.compress(data)`: stringify, UTF-8 encode, gzip,
concatenate the compressed chunks, base64. -/
def compress {α : Type} (g : GzipCodec) (j : JsonCodec α) (t : TextCodec)
    (x : α) : String :=
  arrayBufferToBase64 (joinChunks (g.deflateChunks (t.encode (j.stringify x))))

/-- `CompressionService.decompress(compressedData)`: base64 decode, gunzip,
concatenate the decompressed chunks, UTF-8 decode, parse. -/
def decompress {α : Type} (g : GzipCodec) (j : JsonCodec α) (t : TextCodec)
    (s : String) : Option α :=
  j.parse (t.decode (joinChunks (g.inflateChunks (base64ToArrayBuffer s))))

/-- Identity gzip: a single chunk holding the input. -/
def gzipId : GzipCodec := ⟨fun bs => [bs], fun bs => [bs]⟩

/-- Boolean JSON fixture. -/
def jsonBool : JsonCodec Bool :=
  ⟨fun b => if b then "true" else "false",
   fun s => if s = "true" then some true
            else if s = "false" then some false else none⟩

/-- Char-code text fixture (ASCII payloads round-trip). -/
def textAscii : TextCodec :=
  ⟨fun s => s.data.map Char.toNat, fun l => ⟨l.map Char.ofNat⟩⟩

/-! ## SecurityValidator.sanitizeData / sanitizeString (src/unnamed part)

`sanitizeString` chains four global regex replacements (emails, credit-card
numbers, SSNs, `key=value` secrets).  Each regex is transcribed as a
match-at-position function (JavaScript semantics: leftmost match, greedy with
backtracking, `\b` on word characters), driven by a scan that mirrors
`String.prototype.replace` with the `g` flag.  `sanitizeData` walks an object
graph; since JavaScript object graphs may be cyclic, values are modelled as
references into a finite heap, and the depth bound of the source is the fuel
of the walk. -/

/-- JavaScript `\w`. -/
def isWordChar (c : Char) : Bool := c.isAlpha || c.isDigit || c == '_'

def isWordOpt : Option Char → Bool
  | none => false
  | some c => isWordChar c

/-- JavaScript `\b` between two neighbouring characters (`none` = edge). -/
def jsBoundary (a b : Option Char) : Bool := isWordOpt a != isWordOpt b

/-- JavaScript `\s` (ASCII part). -/
def isJsSpace (c : Char) : Bool :=
  c == ' ' || c == '\t' || c == '\n' || c == '\r' || c.toNat == 11 || c.toNat == 12

/-- `[A-Za-z0-9._%+-]` (the email local part). -/
def localClass (c : Char) : Bool :=
  c.isAlpha || c.isDigit || c == '.' || c == '_' || c == '%' || c == '+' || c == '-'

/-- `[A-Za-z0-9.-]` (the email domain part). -/
def domainClass (c : Char) : Bool := c.isAlpha || c.isDigit || c == '.' || c == '-'

/-- `[A-Z|a-z]` (the email "TLD" class, verbatim from the source, `|` and
all). -/
def tldClass (c : Char) : Bool := c.isAlpha || c == '|'

/-- Greedy-with-backtracking `[A-Z|a-z]{2,}\b` on a run of at most `t` TLD
characters: longest length `≥ 2` ending at a word boundary. -/
def tryTld (tldRest : List Char) : Nat → Option Nat
  | 0 => none
  | 1 => none
  | t + 2 =>
    if jsBoundary tldRest[t + 1]? (tldRest.drop (t + 2)).head? then some (t + 2)
    else tryTld tldRest (t + 1)

/-- Greedy-with-backtracking `[A-Za-z0-9.-]+\.[A-Z|a-z]{2,}\b`: longest
domain prefix followed by a literal dot and a valid TLD. -/
def tryDom (domRest : List Char) : Nat → Option Nat
  | 0 => none
  | d + 1 =>
    match domRest.drop (d + 1) with
    | '.' :: tldRest =>
      match tryTld tldRest (tldRest.takeWhile tldClass).length with
      | some t => some (d + 1 + 1 + t)
      | none => tryDom domRest d
    | _ => tryDom domRest d

/-- Match `\b[A-Za-z0-9._%+-]+@[A-Za-z0-9.-]+\.[A-Z|a-z]{2,}\b` at the head
of `s` (`prev` is the character before `s`, for the leading `\b`). -/
def emailMatch (prev : Option Char) (s : List Char) : Option Nat :=
  let L := (s.takeWhile localClass).length
  if L = 0 then none
  else if !jsBoundary prev s.head? then none
  else
    match s.drop L with
    | '@' :: domRest =>
      match tryDom domRest (domRest.takeWhile domainClass).length with
      | some m => some (L + 1 + m)
      | none => none
    | _ => none

/-- Four decimal digits at the head. -/
def take4digits (s : List Char) : Bool :=
  (s.take 4).length == 4 && (s.take 4).all Char.isDigit

/-- `[-\s]?\d{4}` at the head (the optional separator is forced: skipping a
present separator would put a non-digit where `\d` is required). -/
def ccGroup (s : List Char) : Option Nat :=
  match s with
  | c :: rest =>
    if c == '-' || isJsSpace c then
      if take4digits rest then some 5 else none
    else if take4digits s then some 4 else none
  | [] => none

/-- Match `\b\d{4}[-\s]?\d{4}[-\s]?\d{4}[-\s]?\d{4}\b` at the head of `s`. -/
def ccMatch (prev : Option Char) (s : List Char) : Option Nat :=
  if !take4digits s then none
  else if !jsBoundary prev s.head? then none
  else
    match ccGroup (s.drop 4) with
    | none => none
    | some g1 =>
      match ccGroup (s.drop (4 + g1)) with
      | none => none
      | some g2 =>
        match ccGroup (s.drop (4 + g1 + g2)) with
        | none => none
        | some g3 =>
          let n := 4 + g1 + g2 + g3
          if jsBoundary s[n - 1]? (s.drop n).head? then some n else none

/-- Match `\b\d{3}-\d{2}-\d{4}\b` at the head of `s`. -/
def ssnMatch (prev : Option Char) (s : List Char) : Option Nat :=
  if ((s.take 3).length == 3 && (s.take 3).all Char.isDigit) &&
     s[3]? == some '-' &&
     (((s.drop 4).take 2).length == 2 && ((s.drop 4).take 2).all Char.isDigit) &&
     s[6]? == some '-' &&
     (((s.drop 7).take 4).length == 4 && ((s.drop 7).take 4).all Char.isDigit) &&
     jsBoundary prev s.head? && jsBoundary s[10]? (s.drop 11).head?
  then some 11 else none

/-- Match `\s*[=:]\s*\S+` at the head of `s` (greedy; the whitespace stars
are forced because fewer spaces would put a space where `[=:]`/`\S` is
required). -/
def kvAfter (s : List Char) : Option Nat :=
  let w1 := (s.takeWhile isJsSpace).length
  match s.drop w1 with
  | c :: rest =>
    if c == '=' || c == ':' then
      let w2 := (rest.takeWhile isJsSpace).length
      let v := ((rest.drop w2).takeWhile (fun ch => !isJsSpace ch)).length
      if v = 0 then none else some (w1 + 1 + w2 + v)
    else none
  | [] => none

/-- The keyword alternation of the secret pattern, case-insensitively. -/
def kvTryList : List String → List Char → Option Nat
  | [], _ => none
  | kw :: kws, s =>
    if (s.take kw.length).map jsToLower == kw.data then
      match kvAfter (s.drop kw.length) with
      | some m => some (kw.length + m)
      | none => kvTryList kws s
    else kvTryList kws s

/-- Match `\b(?:password|secret|token|key)\s*[=:]\s*\S+` (flags `gi`) at the
head of `s`. -/
def kvMatch (prev : Option Char) (s : List Char) : Option Nat :=
  if !jsBoundary prev s.head? then none
  else kvTryList ["password", "secret", "token", "key"] s

/-- `String.prototype.replace` with the `g` flag: scan left to right, replace
each leftmost match and resume after it (`prev` tracks the original character
left of the scan position for `\b`).  The fuel is the remaining length plus
one, so it never runs out. -/
def replaceGo (matchLen : Option Char → List Char → Option Nat)
    (repl : List Char) : Nat → Option Char → List Char → List Char
  | 0, _, s => s
  | _ + 1, _, [] => []
  | fuel + 1, prev, c :: rest =>
    match matchLen prev (c :: rest) with
    | some n =>
      repl ++ replaceGo matchLen repl fuel
        (some (((c :: rest).take n).getLastD c)) ((c :: rest).drop n)
    | none => c :: replaceGo matchLen repl fuel (some c) rest

/-- Global regex replacement over a string. -/
def replaceAll (matchLen : Option Char → List Char → Option Nat)
    (repl : String) (s : String) : String :=
  ⟨replaceGo matchLen repl.data (s.data.length + 1) none s.data⟩

/-- `SecurityValidator.sanitizeString(str)`: the four chained replacements,
in source order. -/
def sanitizeString (s : String) : String :=
  replaceAll kvMatch "[REDACTED]"
    (replaceAll ssnMatch "[SSN]"
      (replaceAll ccMatch "[CREDIT_CARD]"
        (replaceAll emailMatch "[EMAIL]" s)))

/-- A JavaScript value: primitives inline, objects and arrays as references
into a heap (so cyclic object graphs are representable). -/
inductive JRef
  | null
  | undef
  | bool (b : Bool)
  | num (n : Int)
  | str (s : String)
  | ptr (a : Nat)
  deriving DecidableEq, Repr

/-- A heap node: an array of values or an object with ordered fields. -/
inductive JNode
  | arr (elems : List JRef)
  | obj (fields : List (String × JRef))
  deriving DecidableEq, Repr

/-- The object graph. -/
def Heap := List (Nat × JNode)

/-- The sanitized output (always a finite tree: the walk is depth-bounded). -/
inductive SVal
  | null
  | undef
  | bool (b : Bool)
  | num (n : Int)
  | str (s : String)
  | arr (elems : List SVal)
  | obj (fields : List (String × SVal))
  deriving Repr

/-- The `sensitiveFields` list of `sanitizeData`. -/
def sensitiveFields : List String :=
  ["password", "secret", "token", "key", "auth", "authorization",
   "cookie", "session", "credit_card", "creditcard", "social_security"]

/-- `key.toLowerCase()`. -/
def strToLower (s : String) : String := ⟨s.data.map jsToLower⟩

/-- `sensitiveFields.some(field => lowerKey.includes(field))`. -/
def isSensitiveKey (k : String) : Bool :=
  sensitiveFields.any (fun f => strIncludes (strToLower k) f)

/-- The inner `sanitizeObject(obj, depth)` of `sanitizeData`: `gas` is
`11 - depth`, so `gas = 0` is exactly the source's `depth > 10` guard and
children recurse at `depth + 1`.  Null/undefined and non-object primitives
pass through, strings go through `sanitizeString`, arrays map, objects redact
sensitive keys and recurse into the rest.  A dangling reference cannot occur
in a well-formed heap; it is mapped to `undef`. -/
def sanitizeObject (h : Heap) : Nat → JRef → SVal
  | 0, _ => .str "[Max Depth Reached]"
  | _ + 1, .null => .null
  | _ + 1, .undef => .undef
  | _ + 1, .str s => .str (sanitizeString s)
  | _ + 1, .bool b => .bool b
  | _ + 1, .num n => .num n
  | gas + 1, .ptr a =>
    match List.lookup a h with
    | none => .undef
    | some (.arr elems) => .arr (elems.map (fun e => sanitizeObject h gas e))
    | some (.obj fields) => .obj (fields.map (fun kv =>
        if isSensitiveKey kv.1 then (kv.1, SVal.str "[REDACTED]")
        else (kv.1, sanitizeObject h gas kv.2)))

/-- `SecurityValidator.sanitizeData(data)`: walk the (spread-copied) root
object at depth 0, i.e. gas 11. -/
def sanitizeData (h : Heap) (root : Nat) : SVal :=
  sanitizeObject h 11 (.ptr root)

/-- The expected output of sanitizing the one-node cyclic heap
`{self: <itself>}`: `n` nested objects around the depth marker. -/
def nestSelf : Nat → SVal
  | 0 => .str "[Max Depth Reached]"
  | n + 1 => .obj [("self", nestSelf n)]

/-- The one-node cyclic heap: object 0 whose `self` field points to itself. -/
def cyclicHeap : Heap := [(0, .obj [("self", .ptr 0)])]

/-- A single failure in `CLOSED` below the threshold only counts. -/
theorem onFailure_closed_step (cfg : CBConfig) (t : Int) (s : CBState)
    (hm : s.mode = .CLOSED) (hlt : s.failureCount + 1 < cfg.failureThreshold) :
    onFailure cfg t s =
      { s with failureCount := s.failureCount + 1, lastFailureTime := some t } := by
  unfold onFailure
  simp only [hm]
  have h1 : ¬ (CBMode.CLOSED = CBMode.HALF_OPEN) := by decide
  rw [if_neg h1, if_neg (by omega : ¬ s.failureCount + 1 ≥ cfg.failureThreshold)]

/-- Running strictly fewer failures than the threshold keeps the breaker
`CLOSED`, merely accumulating `failureCount`. -/
theorem onFailures_closed (cfg : CBConfig) :
    ∀ (ts : List Int) (s : CBState), s.mode = .CLOSED →
      s.failureCount + ts.length < cfg.failureThreshold →
      (onFailures cfg ts s).mode = .CLOSED ∧
      (onFailures cfg ts s).failureCount = s.failureCount + ts.length ∧
      (onFailures cfg ts s).nextRetryTime = s.nextRetryTime
  | [], s, hm, _ => by
      refine ⟨by simpa [onFailures] using hm, by simp [onFailures], by simp [onFailures]⟩
  | t :: rest, s, hm, hlt => by
      have hstep := onFailure_closed_step cfg t s hm (by simp at hlt; omega)
      have hrec := onFailures_closed cfg rest
        { s with failureCount := s.failureCount + 1, lastFailureTime := some t }
        hm (by simp at hlt ⊢; omega)
      simp only [onFailures, List.foldl_cons] at *
      rw [hstep]
      refine ⟨hrec.1, ?_, hrec.2.2⟩
      rw [hrec.2.1]
      simp
      omega

/-- The failure that reaches the threshold trips the circuit. -/
theorem onFailure_trips (cfg : CBConfig) (t : Int) (s : CBState)
    (hm : s.mode = .CLOSED) (hge : s.failureCount + 1 ≥ cfg.failureThreshold) :
    (onFailure cfg t s).mode = .OPEN ∧
    (onFailure cfg t s).nextRetryTime = some (t + cfg.timeout) := by
  unfold onFailure
  simp only [hm]
  have h1 : ¬ (CBMode.CLOSED = CBMode.HALF_OPEN) := by decide
  rw [if_neg h1, if_pos (by omega : s.failureCount + 1 ≥ cfg.failureThreshold)]
  exact ⟨rfl, rfl⟩

/-- C1 counterexample: with `failureThreshold = 1`, `timeout = 30000`, one
failure at time 0 opens the breaker; the first call at `t = 30000` is let
through and moves the breaker to `HALF_OPEN`; the claim says a second call
arriving while that trial is in flight is still gated, but the code answers
`true` for the second call as well. -/
theorem sdk_c1_counterexample :
    (isCallAllowed 30001
      (isCallAllowed 30000 (onFailure ⟨1, 30000⟩ 0 CBState.initial)).2).1 = true := by
  decide

/-- C1 (amended): after `failureThreshold` consecutive failures the breaker is
`OPEN` with `nextRetryTime` set from the last failure; `isCallAllowed` answers
`false` strictly before `nextRetryTime` and `true` at or after it (moving to
`HALF_OPEN`); while `HALF_OPEN`, every further call is also answered `true`
(a second call during the trial is NOT gated); the trial's failure re-opens
the breaker with `nextRetryTime = now + timeout`, and its success resets both
counters to zero. -/
theorem sdk_c1_theorem (cfg : CBConfig) (ts : List Int) (h1 : ts ≠ [])
    (h2 : ts.length = cfg.failureThreshold) :
    ((onFailures cfg ts CBState.initial).mode = .OPEN ∧
     (onFailures cfg ts CBState.initial).nextRetryTime =
       some (ts.getLast h1 + cfg.timeout)) ∧
    (∀ (s : CBState) (now r : Int), s.mode = .OPEN → s.nextRetryTime = some r →
      now < r → isCallAllowed now s = (false, s)) ∧
    (∀ (s : CBState) (now r : Int), s.mode = .OPEN → s.nextRetryTime = some r →
      now ≥ r → isCallAllowed now s = (true, { s with mode := .HALF_OPEN })) ∧
    (∀ (s : CBState) (now : Int), s.mode = .HALF_OPEN →
      isCallAllowed now s = (true, s)) ∧
    (∀ (s : CBState) (now : Int), s.mode = .HALF_OPEN →
      (onFailure cfg now s).mode = .OPEN ∧
      (onFailure cfg now s).nextRetryTime = some (now + cfg.timeout)) ∧
    (∀ (s : CBState), s.mode = .HALF_OPEN →
      onSuccess s = CBState.initial) := by
  refine ⟨?_, ?_, ?_, ?_, ?_, ?_⟩
  · -- threshold consecutive failures trip the circuit
    have hsplit := List.dropLast_append_getLast h1
    have hlen : ts.dropLast.length = cfg.failureThreshold - 1 := by
      have := List.length_dropLast ts
      omega
    have hthr : 1 ≤ cfg.failureThreshold := by
      have : 0 < ts.length := List.length_pos.mpr h1
      omega
    have hclosed := onFailures_closed cfg ts.dropLast CBState.initial rfl
      (by simp only [CBState.initial, hlen]; omega)
    have hfold : onFailures cfg ts CBState.initial =
        onFailure cfg (ts.getLast h1) (onFailures cfg ts.dropLast CBState.initial) := by
      conv_lhs => rw [← hsplit]
      simp [onFailures, List.foldl_append]
    rw [hfold]
    apply onFailure_trips cfg _ _ hclosed.1
    rw [hclosed.2.1]
    simp only [CBState.initial, hlen]
    omega
  · intro s now r hm hr hlt
    unfold isCallAllowed
    rw [hm, hr]
    simp only [ge_iff_le]
    rw [if_neg (by omega)]
  · intro s now r hm hr hge
    unfold isCallAllowed
    rw [hm, hr]
    simp only [ge_iff_le]
    rw [if_pos (by omega)]
  · intro s now hm
    unfold isCallAllowed
    rw [hm]
  · intro s now hm
    unfold onFailure
    rw [hm]
    simp [tripCircuit]
  · intro s hm
    unfold onSuccess
    rw [hm]
    simp

/-- C1 witness: the amended theorem applied at `failureThreshold = 1`,
`timeout = 30000`, a single failure at time 0. -/
theorem sdk_c1_witness :
    (onFailures ⟨1, 30000⟩ [0] CBState.initial).mode = .OPEN ∧
    (onFailures ⟨1, 30000⟩ [0] CBState.initial).nextRetryTime = some 30000 := by
  have h := (sdk_c1_theorem ⟨1, 30000⟩ [0] (by decide) (by decide)).1
  simpa using h

theorem lookup_setEntry (k : String) (v : RequestInfo) :
    ∀ st : RLState, List.lookup k (setEntry k v st) = some v
  | [] => by simp [setEntry, List.lookup]
  | (k', v') :: rest => by
    by_cases h : k = k'
    · simp [setEntry, h, List.lookup]
    · simp only [setEntry, if_neg h, List.lookup]
      rw [show (k == k') = false from beq_eq_false_iff_ne.mpr h]
      exact lookup_setEntry k v rest

/-- With `maxRequests = 0`, `canMakeRequest` denies and leaves the state
untouched, whatever the state. -/
theorem canMakeRequest_zero (cfg : RLConfig) (h0 : cfg.maxRequests = 0)
    (now : Int) (key : String) (st : RLState) :
    canMakeRequest cfg now key st = (false, st) := by
  unfold canMakeRequest
  cases hl : List.lookup key st with
  | none => simp [h0]
  | some ri =>
    by_cases hexp : now ≥ ri.resetTime
    · simp [hexp, h0]
    · simp [hexp, h0]

/-- Within a live window whose stored count is `c`, the `i`-th further call
answers `true` exactly when `c + i < maxRequests`. -/
theorem runCalls_live (cfg : RLConfig) (key : String) (rt : Int) :
    ∀ (rest : List Int) (st : RLState) (c : Nat),
      List.lookup key st = some ⟨c, rt⟩ →
      (∀ t ∈ rest, t < rt) →
      (runCalls cfg key rest st).1 =
        (List.range rest.length).map (fun i => decide (c + i < cfg.maxRequests))
  | [], _, _, _, _ => by simp [runCalls]
  | t :: rest, st, c, hl, hw => by
    have ht : t < rt := hw t (by simp)
    by_cases hc : c ≥ cfg.maxRequests
    · have hstep : canMakeRequest cfg t key st = (false, st) := by
        unfold canMakeRequest
        rw [hl]
        simp only
        rw [if_neg (by omega), if_pos (by simpa using hc)]
      have hrec := runCalls_live cfg key rt rest st c hl
        (fun t' ht' => hw t' (by simp [ht']))
      simp only [runCalls, hstep, hrec, List.length_cons, List.range_succ_eq_map,
        List.map_cons, List.map_map]
      congr 1
      · have hx : ¬ (c + 0 < cfg.maxRequests) := by omega
        simp [hx]
        omega
      · apply List.map_congr_left
        intro i _
        simp only [Function.comp_apply, Nat.succ_eq_add_one, decide_eq_decide]
        constructor <;> intro <;> omega
    · have hstep : canMakeRequest cfg t key st =
          (true, setEntry key ⟨c + 1, rt⟩ st) := by
        unfold canMakeRequest
        rw [hl]
        simp only
        rw [if_neg (by omega), if_neg (by simpa using hc)]
      have hrec := runCalls_live cfg key rt rest (setEntry key ⟨c + 1, rt⟩ st) (c + 1)
        (lookup_setEntry key _ st) (fun t' ht' => hw t' (by simp [ht']))
      simp only [runCalls, hstep, hrec, List.length_cons, List.range_succ_eq_map,
        List.map_cons, List.map_map]
      congr 1
      · have hx : c + 0 < cfg.maxRequests := by omega
        simp [hx]
        omega
      · apply List.map_congr_left
        intro i _
        simp only [Function.comp_apply, Nat.succ_eq_add_one, decide_eq_decide]
        constructor <;> intro <;> omega

/-- With `maxRequests = 0`, every run is all-`false` and leaves the state. -/
theorem runCalls_zero (cfg : RLConfig) (key : String) (h0 : cfg.maxRequests = 0) :
    ∀ (ts : List Int) (s : RLState),
      runCalls cfg key ts s = (List.replicate ts.length false, s)
  | [], s => by simp [runCalls]
  | t :: ts, s => by
    simp only [runCalls, canMakeRequest_zero cfg h0 t key s,
      runCalls_zero cfg key h0 ts s, List.length_cons, List.replicate_succ]

theorem count_range_lt : ∀ (n m : Nat),
    (((List.range n).map (fun i => decide (i < m))).count true) = min n m
  | 0, m => by simp
  | n + 1, m => by
    rw [List.range_succ, List.map_append, List.count_append, count_range_lt n m]
    by_cases h : n < m
    · simp [h]
      omega
    · simp [h]
      omega

theorem getD_map_range (n m : Nat) (f : Nat → Bool) (h : m < n) :
    (((List.range n).map f).getD m true) = f m := by
  rw [List.getD_eq_getElem?_getD, List.getElem?_map, List.getElem?_range h]
  rfl

/-- C3: starting with no live window for `key` at `t0`, a run of calls all
inside the fixed window `[t0, t0 + windowMs)` answers `true` exactly for the
first `maxRequests` calls: at most `maxRequests` calls are admitted, and the
`(maxRequests+1)`-th call (when it exists) is denied.  With
`maxRequests = 0`, every call is denied, whatever the state. -/
theorem sdk_c3_theorem (cfg : RLConfig) (key : String) (st0 : RLState)
    (t0 : Int) (rest : List Int)
    (hfresh : freshFor t0 key st0 = true)
    (hwin : ∀ t ∈ rest, t < t0 + cfg.windowMs) :
    ((runCalls cfg key (t0 :: rest) st0).1 =
      (List.range (rest.length + 1)).map (fun i => decide (i < cfg.maxRequests))) ∧
    (runCalls cfg key (t0 :: rest) st0).1.count true = min (rest.length + 1) cfg.maxRequests ∧
    (runCalls cfg key (t0 :: rest) st0).1.count true ≤ cfg.maxRequests ∧
    (cfg.maxRequests < rest.length + 1 →
      (runCalls cfg key (t0 :: rest) st0).1.getD cfg.maxRequests true = false) ∧
    (cfg.maxRequests = 0 → ∀ (now : Int) (s : RLState),
      canMakeRequest cfg now key s = (false, s)) := by
  have hmain : (runCalls cfg key (t0 :: rest) st0).1 =
      (List.range (rest.length + 1)).map (fun i => decide (i < cfg.maxRequests)) := by
    by_cases h0 : cfg.maxRequests = 0
    · rw [runCalls_zero cfg key h0]
      simp only [h0, List.length_cons]
      have : ∀ n : Nat, (List.range n).map (fun i => decide (i < 0)) =
          List.replicate n false := by
        intro n
        have hmem : ∀ b ∈ (List.range n).map (fun i => decide (i < 0)), b = false := by
          intro b hb
          simp only [List.mem_map, List.mem_range] at hb
          obtain ⟨i, _, hbi⟩ := hb
          simp [← hbi]
        have h2 := List.eq_replicate_of_mem hmem
        simp only [List.length_map, List.length_range] at h2
        exact h2
      rw [this]
    · have hstep : canMakeRequest cfg t0 key st0 =
          (true, setEntry key ⟨1, t0 + cfg.windowMs⟩ st0) := by
        unfold canMakeRequest freshFor at *
        cases hl : List.lookup key st0 with
        | none => simp [hl, h0]
        | some ri =>
          rw [hl] at hfresh
          simp only [decide_eq_true_eq] at hfresh
          simp [hl, hfresh, h0]
      have hrec := runCalls_live cfg key (t0 + cfg.windowMs) rest
        (setEntry key ⟨1, t0 + cfg.windowMs⟩ st0) 1
        (lookup_setEntry key _ st0) hwin
      simp only [runCalls, hstep, hrec, List.length_cons, List.range_succ_eq_map,
        List.map_cons, List.map_map]
      congr 1
      · simp
        omega
      · apply List.map_congr_left
        intro i _
        simp only [Function.comp_apply, Nat.succ_eq_add_one, decide_eq_decide]
        constructor <;> intro <;> omega
  refine ⟨hmain, ?_, ?_, ?_, fun h0 now s => canMakeRequest_zero cfg h0 now key s⟩
  · rw [hmain, count_range_lt]
  · rw [hmain, count_range_lt]
    omega
  · intro hlen
    rw [hmain, getD_map_range _ _ _ hlen]
    simp

/-- C3 witness: `maxRequests = 2`, window 60000 ms, three calls at
`t = 0, 1, 2` from the empty map: answers `[true, true, false]`, two
admitted, the third denied. -/
theorem sdk_c3_witness :
    ((runCalls ⟨2, 60000, 5000⟩ "default" [0, 1, 2] []).1 =
      [true, true, false]) ∧
    (runCalls ⟨2, 60000, 5000⟩ "default" [0, 1, 2] []).1.count true ≤ 2 ∧
    (runCalls ⟨2, 60000, 5000⟩ "default" [0, 1, 2] []).1.getD 2 true = false := by
  have h := sdk_c3_theorem ⟨2, 60000, 5000⟩ "default" [] 0 [1, 2]
    (by decide) (by decide)
  refine ⟨?_, h.2.2.1, h.2.2.2.1 (by decide)⟩
  rw [h.1]
  decide

/-- C2 counterexample: an unclassified failure (message `"boom"`, no status,
no code) is claimed to be retried up to `maxRetries` additional times, but
`shouldRetryError` classifies it as non-retryable, so with `maxRetries = 3`
the operation is invoked exactly once, not 4 times. -/
theorem sdk_c2_counterexample :
    (executeWithRetry 3 (fun _ => .error (some ⟨none, none, some "boom"⟩)) :
      Except (Option JsError) Unit × Nat).2 = 1 ∧
    shouldRetryError (some ⟨none, none, some "boom"⟩) = false ∧
    (1 : Nat) ≠ 3 + 1 := by
  refine ⟨by decide, by decide, by decide⟩

/-- A non-retryable first failure stops the recursion at once. -/
theorem runRetryGo_stop {α : Type} (op : Nat → Except (Option JsError) α)
    (e : Option JsError) (rem cur : Nat) (hop : op cur = .error e)
    (hcl : shouldRetryError e = false) :
    runRetryGo op rem cur = (.error e, 1) := by
  cases rem with
  | zero => simp [runRetryGo, hop]
  | succ r => simp [runRetryGo, hop, hcl]

/-- Retryable failures exhaust the whole retry budget. -/
theorem runRetryGo_exhaust {α : Type} (op : Nat → Except (Option JsError) α)
    (errs : Nat → Option JsError) :
    ∀ (rem cur : Nat),
      (∀ k, cur ≤ k → k ≤ cur + rem → op k = .error (errs k) ∧
        shouldRetryError (errs k) = true) →
      runRetryGo op rem cur = (.error (errs (cur + rem)), rem + 1)
  | 0, cur, h => by
    have := h cur (by omega) (by omega)
    simp [runRetryGo, this.1]
  | rem + 1, cur, h => by
    have hc := h cur (by omega) (by omega)
    have hrec := runRetryGo_exhaust op errs rem (cur + 1)
      (fun k hk1 hk2 => h k (by omega) (by omega))
    simp only [runRetryGo, hc.1, hc.2, if_true, hrec]
    rw [show cur + 1 + rem = cur + (rem + 1) from by omega]

/-- C2 (amended): a failure classified non-retryable by `shouldRetryError`
(HTTP 401/403 by field or message, unauthorized/forbidden messages — and also
any unclassified failure) makes `executeWithRetry` invoke the operation
exactly once and propagate the rejection; a failure classified retryable
(an `HTTP n:` message with `n ≥ 500`, `n = 429` or `n = 408`, or a
network/timeout error) is retried up to `maxRetries` additional times, the
final rejection propagating. -/
theorem sdk_c2_theorem (m : Nat) :
    (∀ (op : Nat → Except (Option JsError) Unit) (e : Option JsError),
      op 0 = .error e → shouldRetryError e = false →
      executeWithRetry m op = (.error e, 1)) ∧
    (∀ (op : Nat → Except (Option JsError) Unit) (errs : Nat → Option JsError),
      (∀ k, k ≤ m → op k = .error (errs k) ∧ shouldRetryError (errs k) = true) →
      executeWithRetry m op = (.error (errs m), m + 1)) ∧
    shouldRetryError (some ⟨some 401, none, none⟩) = false ∧
    shouldRetryError (some ⟨some 403, none, none⟩) = false ∧
    shouldRetryError (some ⟨none, none, some "Unauthorized access"⟩) = false ∧
    shouldRetryError (some ⟨none, none, some "Forbidden"⟩) = false ∧
    shouldRetryError (some ⟨none, none, some "HTTP 500: Internal Server Error"⟩) = true ∧
    shouldRetryError (some ⟨none, none, some "HTTP 429: Too Many Requests"⟩) = true ∧
    shouldRetryError (some ⟨none, none, some "HTTP 408: Request Timeout"⟩) = true ∧
    shouldRetryError (some ⟨none, some "NETWORK_ERROR", none⟩) = true ∧
    shouldRetryError (some ⟨none, some "TIMEOUT", none⟩) = true ∧
    shouldRetryError (some ⟨none, none, some "Request timeout"⟩) = true ∧
    shouldRetryError (some ⟨none, none, some "boom"⟩) = false ∧
    shouldRetryError none = false := by
  refine ⟨?_, ?_, by decide, by decide, by decide, by decide, by decide, by decide,
    by decide, by decide, by decide, by decide, by decide, by decide⟩
  · intro op e hop hcl
    exact runRetryGo_stop op e m 0 hop hcl
  · intro op errs h
    have := runRetryGo_exhaust op errs m 0 (fun k hk1 hk2 => h k (by omega))
    simpa using this

/-- C2 witness: the amended theorem applied with `maxRetries = 1` to a
non-retryable 401 failure (one invocation) and to an always-failing
network error (two invocations). -/
theorem sdk_c2_witness :
    (executeWithRetry 1 (fun _ => .error (some ⟨some 401, none, none⟩)) :
      Except (Option JsError) Unit × Nat) = (.error (some ⟨some 401, none, none⟩), 1) ∧
    (executeWithRetry 1 (fun _ => .error (some ⟨none, some "NETWORK_ERROR", none⟩)) :
      Except (Option JsError) Unit × Nat) =
      (.error (some ⟨none, some "NETWORK_ERROR", none⟩), 2) := by
  constructor
  · exact (sdk_c2_theorem 1).1 _ _ rfl (by decide)
  · exact (sdk_c2_theorem 1).2.1 _ (fun _ => some ⟨none, some "NETWORK_ERROR", none⟩)
      (fun k _ =>
        ⟨rfl, show shouldRetryError (some ⟨none, some "NETWORK_ERROR", none⟩) = true
          by decide⟩)

/-- C4 counterexample: a queued report from `t = 0` with `maxAge = 10` is
older than `maxAge` at `now = 1000`, yet an online `processQueue` run still
attempts to send it (and re-queues it on failure) instead of purging it
first, contradicting "entries older than maxAge are purged before any
processQueue run". -/
theorem sdk_c4_counterexample :
    let r0 : ErrorReport := ⟨"boom", none, "Error", "production", "tok", "ctx"⟩
    let item0 : QueuedReport := ⟨r0, 0, 0⟩
    let st : OMState := ⟨[item0], true, 50, 10⟩
    ¬ ((1000 : Int) - item0.timestamp < st.maxAge) ∧
    (processQueue (fun _ => false) st).2 = [item0] ∧
    (processQueue (fun _ => false) st).1.queue = [⟨r0, 0, 1⟩] := by
  refine ⟨by decide, by decide, by decide⟩

/-- C4 (amended): `queueReport` purges entries older than `maxAge` and then
evicts the single oldest entry when the (cleaned) queue is at capacity, so a
queue within its bound stays within it (the constructor forces
`maxQueueSize ≥ 1`); every retained pre-existing entry is younger than
`maxAge`; and `processQueue` while offline is a no-op that attempts nothing —
but `processQueue` itself does NOT purge stale entries first. -/
theorem sdk_c4_theorem (now : Int) (r : ErrorReport) (st : OMState)
    (sendOk : QueuedReport → Bool)
    (hmax : 1 ≤ st.maxQueueSize) (hlen : st.queue.length ≤ st.maxQueueSize) :
    (queueReport now r st).queue.length ≤ st.maxQueueSize ∧
    ((cleanupOldReports now st).queue.length = st.maxQueueSize →
      (queueReport now r st).queue =
        (cleanupOldReports now st).queue.drop 1 ++ [⟨r, now, 0⟩]) ∧
    (∀ item ∈ (queueReport now r st).queue,
      item = ⟨r, now, 0⟩ ∨ now - item.timestamp < st.maxAge) ∧
    (st.isOnline = false → processQueue sendOk st = (st, [])) ∧
    (∀ (m : Nat) (a : Int) (online : Bool),
      1 ≤ (mkOfflineManager m a online).maxQueueSize) := by
  have hclean : (cleanupOldReports now st).queue.length ≤ st.queue.length :=
    List.length_filter_le _ _
  refine ⟨?_, ?_, ?_, ?_, ?_⟩
  · unfold queueReport
    by_cases hfull : (cleanupOldReports now st).queue.length ≥ st.maxQueueSize
    · simp only [cleanupOldReports] at *
      simp [hfull]
      omega
    · simp only [cleanupOldReports] at *
      simp [hfull]
      omega
  · intro hcap
    unfold queueReport
    simp only [cleanupOldReports] at *
    simp [hcap, hmax]
  · intro item hitem
    unfold queueReport at hitem
    simp only [List.mem_append, List.mem_singleton] at hitem
    rcases hitem with hold | hnew
    · right
      have : item ∈ (cleanupOldReports now st).queue := by
        split at hold
        · exact List.mem_of_mem_drop hold
        · exact hold
      simp only [cleanupOldReports, List.mem_filter, decide_eq_true_eq] at this
      exact this.2
    · left
      exact hnew
  · intro hoff
    unfold processQueue
    rw [if_pos (Or.inl hoff)]
  · intro m a online
    unfold mkOfflineManager jsOrNat
    by_cases hm : m = 0
    · simp [hm]
    · simp [hm]
      omega

/-- C4 witness: capacity 1, one live entry from `t = 0`, enqueue at `t = 5`
with `maxAge = 100`: the old entry is evicted, the queue stays at size 1,
and offline `processQueue` leaves everything alone. -/
theorem sdk_c4_witness :
    let rOld : ErrorReport := ⟨"old", none, "Error", "production", "tok", "ctx"⟩
    let rNew : ErrorReport := ⟨"new", none, "Error", "production", "tok", "ctx"⟩
    let st : OMState := ⟨[⟨rOld, 0, 0⟩], false, 1, 100⟩
    (queueReport 5 rNew st).queue.length ≤ 1 ∧
    (queueReport 5 rNew st).queue = [⟨rNew, 5, 0⟩] ∧
    processQueue (fun _ => false) st = (st, []) := by
  intro rOld rNew st
  have h := sdk_c4_theorem 5 rNew st (fun _ => false) (by decide) (by decide)
  refine ⟨h.1, ?_, h.2.2.2.1 rfl⟩
  have hcap : (cleanupOldReports 5 st).queue.length = st.maxQueueSize := by decide
  have h2 := h.2.1 hcap
  rw [h2]
  decide

/-- Within the same day and month, `resetExpiredCounters` leaves the daily
and monthly counters alone. -/
theorem resetExpired_keep (cal : Cal) (L : QuotaLimits) (t t0 : Int)
    (u : QuotaUsage) (hd : cal.dayStart t ≤ t0) (hm : cal.monthStart t ≤ t0)
    (h1 : u.lastResetDaily = t0) (h2 : u.lastResetMonthly = t0) :
    (resetExpiredCounters cal L t u).dailyUsed = u.dailyUsed ∧
    (resetExpiredCounters cal L t u).monthlyUsed = u.monthlyUsed ∧
    (resetExpiredCounters cal L t u).lastResetDaily = t0 ∧
    (resetExpiredCounters cal L t u).lastResetMonthly = t0 := by
  unfold resetExpiredCounters rollDaily rollMonthly rollBurst
  rw [if_neg (by omega : ¬ u.lastResetDaily < cal.dayStart t)]
  rw [if_neg (by omega : ¬ u.lastResetMonthly < cal.monthStart t)]
  split
  · exact ⟨rfl, rfl, h1, h2⟩
  · exact ⟨rfl, rfl, h1, h2⟩

/-- Within the same day and month, each `recordErrorSent` adds exactly one to
the daily counter and keeps the reset anchors. -/
theorem recordErrorSent_step (cal : Cal) (L : QuotaLimits) (t t0 : Int)
    (u : QuotaUsage) (hd : cal.dayStart t ≤ t0) (hm : cal.monthStart t ≤ t0)
    (h1 : u.lastResetDaily = t0) (h2 : u.lastResetMonthly = t0) :
    (recordErrorSent cal L t 0 u).dailyUsed = u.dailyUsed + 1 ∧
    (recordErrorSent cal L t 0 u).lastResetDaily = t0 ∧
    (recordErrorSent cal L t 0 u).lastResetMonthly = t0 := by
  have hk := resetExpired_keep cal L t t0 u hd hm h1 h2
  unfold recordErrorSent
  rw [if_neg (by simp : ¬ (0 : Nat) ≠ 0)]
  exact ⟨by rw [hk.1], hk.2.2.1, hk.2.2.2⟩

/-- A same-day, same-month run of `recordErrorSent` calls accumulates the
daily counter one-for-one. -/
theorem recordMany_inv (cal : Cal) (L : QuotaLimits) (t0 : Int) :
    ∀ (ts : List Int) (u : QuotaUsage),
      u.lastResetDaily = t0 → u.lastResetMonthly = t0 →
      (∀ t ∈ ts, cal.dayStart t ≤ t0) → (∀ t ∈ ts, cal.monthStart t ≤ t0) →
      (recordMany cal L ts u).dailyUsed = u.dailyUsed + ts.length ∧
      (recordMany cal L ts u).lastResetDaily = t0 ∧
      (recordMany cal L ts u).lastResetMonthly = t0
  | [], u, h1, h2, _, _ =>
    ⟨by simp [recordMany], by simpa [recordMany] using h1,
     by simpa [recordMany] using h2⟩
  | t :: ts, u, h1, h2, hd, hm => by
    have hstep := recordErrorSent_step cal L t t0 u (hd t (by simp))
      (hm t (by simp)) h1 h2
    have hrec := recordMany_inv cal L t0 ts (recordErrorSent cal L t 0 u)
      hstep.2.1 hstep.2.2
      (fun t' ht' => hd t' (by simp [ht']))
      (fun t' ht' => hm t' (by simp [ht']))
    simp only [recordMany, List.foldl_cons] at *
    refine ⟨?_, hrec.2.1, hrec.2.2⟩
    rw [hrec.1, hstep.1, List.length_cons]
    omega

/-- C7: from fresh usage, after `dailyLimit` recorded sends all within one
(local) day and month, the next `canSendError` denies with the
"Daily limit (n) exceeded" reason and a `retryAfter` computed from the next
daily reset; and `resetUsage` zeroes all three counters and the byte count. -/
theorem sdk_c7_theorem (cal : Cal) (L : QuotaLimits) (t0 : Int) (ts : List Int)
    (tq : Int) (hlim : 1 ≤ L.dailyLimit) (hlen : ts.length = L.dailyLimit)
    (hd : ∀ t ∈ ts, cal.dayStart t ≤ t0) (hm : ∀ t ∈ ts, cal.monthStart t ≤ t0)
    (hdq : cal.dayStart tq ≤ t0) (hmq : cal.monthStart tq ≤ t0) :
    (canSendError cal L tq 0 (recordMany cal L ts (freshUsage t0))).2 =
      { allowed := false,
        reason := some ("Daily limit (" ++ toString L.dailyLimit ++ ") exceeded"),
        retryAfter := some (getNextDailyReset cal tq - tq) } ∧
    (∀ now : Int, resetUsage now = ⟨0, 0, 0, now, now, now, 0⟩) := by
  constructor
  · have hinv := recordMany_inv cal L t0 ts (freshUsage t0) rfl rfl hd hm
    set uN := recordMany cal L ts (freshUsage t0) with huN
    have hkeep := resetExpired_keep cal L tq t0 uN hdq hmq hinv.2.1 hinv.2.2
    have hdaily : (resetExpiredCounters cal L tq uN).dailyUsed = L.dailyLimit := by
      rw [hkeep.1, hinv.1]
      simp [freshUsage, hlen]
    have hcheck : canSendCheck cal L tq 0 (resetExpiredCounters cal L tq uN) =
        some (.daily L.dailyLimit, some (getNextDailyReset cal tq - tq)) := by
      unfold canSendCheck
      rw [if_neg (by simp), if_pos (by constructor <;> omega)]
    unfold canSendError
    rw [hcheck]
    rfl
  · intro now
    rfl

/-- C7 witness: `dailyLimit = 2`, two sends at `t = 10, 11` from fresh usage
at `t0 = 10`, query at `t = 12`. -/
theorem sdk_c7_witness :
    (canSendError calW limitsW 12 0
        (recordMany calW limitsW [10, 11] (freshUsage 10))).2 =
      { allowed := false, reason := some "Daily limit (2) exceeded",
        retryAfter := some (getNextDailyReset calW 12 - 12) } ∧
    resetUsage 7 = ⟨0, 0, 0, 7, 7, 7, 0⟩ := by
  have h := sdk_c7_theorem calW limitsW 10 [10, 11] 12
    (by decide) (by decide) (by decide) (by decide) (by decide) (by decide)
  exact ⟨h.1, h.2 7⟩

/-- C10: a quota limit configured as `0` is falsy in the source, so its check
is skipped entirely: `canSendCheck` can never report the daily (resp.
monthly, burst) window when that limit is `0`, and with every limit `0`,
`canSendError` allows regardless of the recorded usage — the opposite
convention from the RateLimiter, where `maxRequests = 0` always denies. -/
theorem sdk_c10_theorem (cal : Cal) (L : QuotaLimits) (now : Int) (p : Nat)
    (u : QuotaUsage) :
    (L.dailyLimit = 0 → ∀ l r, canSendCheck cal L now p u ≠ some (.daily l, r)) ∧
    (L.monthlyLimit = 0 → ∀ l r, canSendCheck cal L now p u ≠ some (.monthly l, r)) ∧
    (L.burstLimit = 0 → ∀ l r, canSendCheck cal L now p u ≠ some (.burst l, r)) ∧
    (L.dailyLimit = 0 → L.monthlyLimit = 0 → L.burstLimit = 0 →
      L.payloadSizeLimit = 0 → (canSendError cal L now p u).2.allowed = true) := by
  refine ⟨?_, ?_, ?_, ?_⟩
  · intro h0 l r hcontra
    unfold canSendCheck at hcontra
    split_ifs at hcontra with hp hdly hmon hbst <;> simp_all
  · intro h0 l r hcontra
    unfold canSendCheck at hcontra
    split_ifs at hcontra with hp hdly hmon hbst <;> simp_all
  · intro h0 l r hcontra
    unfold canSendCheck at hcontra
    split_ifs at hcontra with hp hdly hmon hbst <;> simp_all
  · intro h1 h2 h3 h4
    have hcheck : canSendCheck cal L now p (resetExpiredCounters cal L now u) = none := by
      unfold canSendCheck
      rw [if_neg (by simp [h4]), if_neg (by simp [h1]), if_neg (by simp [h2]),
        if_neg (by simp [h3])]
    unfold canSendError
    rw [hcheck]

/-- C10 witness: all limits `0`, enormous recorded usage, still allowed. -/
theorem sdk_c10_witness :
    (canSendError calW limitsZ 5 123456 ⟨999999, 999999, 999999, 0, 0, 0, 0⟩).2.allowed
      = true :=
  (sdk_c10_theorem calW limitsZ 5 123456 ⟨999999, 999999, 999999, 0, 0, 0, 0⟩).2.2.2
    rfl rfl rfl rfl

/-- C5: for every configuration and every behaviour of the rate-limit, quota,
connectivity, offline and retry collaborators, the promise returned by
`reportError` resolves (never rejects); in particular, when a send fails
after all retries with offline support disabled, the internal `sendReport`
rejection is caught and resolved as an internal drop. -/
theorem sdk_c5_theorem :
    (∀ (enabled isInitialized : Bool) (c : ReporterCollab),
      (reportErrorP enabled isInitialized c).isOk = true) ∧
    reportErrorTry collabWorst =
      .error (some ⟨none, none, some "HTTP 503: Service Unavailable"⟩) ∧
    reportErrorP true true collabWorst = .ok .droppedInternal := by
  refine ⟨?_, by rfl, by rfl⟩
  intro enabled isInitialized c
  unfold reportErrorP
  split
  · rfl
  · split <;> rfl

/-- C6 counterexample: with offline support enabled and one report persisted,
`destroy()` overwrites the persisted queue with the empty queue — the
already-persisted contents of durable storage are NOT unchanged. -/
theorem sdk_c6_counterexample :
    let item0 : QueuedReport :=
      ⟨⟨"boom", none, "Error", "production", "tok", "ctx"⟩, 0, 0⟩
    let st0 : ReporterDestroyState := ⟨some 1, [item0], some [item0]⟩
    (destroy true st0).storage = some [] ∧
    (destroy true st0).storage ≠ st0.storage := by
  refine ⟨by decide, by decide⟩

/-- C6 (amended): `destroy()` stops the periodic cleanup timer; with offline
support enabled it clears the offline queue AND overwrites the persisted
queue with the empty queue (persisted reports are discarded); with offline
support disabled the queue and the persisted record are untouched. -/
theorem sdk_c6_theorem (st : ReporterDestroyState) (en : Bool) :
    (destroy en st).cleanupInterval = none ∧
    (destroy true st).offlineQueue = [] ∧
    (destroy true st).storage = some [] ∧
    (destroy false st).offlineQueue = st.offlineQueue ∧
    (destroy false st).storage = st.storage := by
  unfold destroy clearQueue
  cases en <;> simp

theorem charToSextet_sextetToChar : ∀ n < 64, charToSextet (sextetToChar n) = n := by
  decide

theorem sextetToChar_ne_pad : ∀ n < 64, sextetToChar n ≠ '=' := by
  decide

/-- Base64 round-trip on byte lists. -/
theorem decB64_encB64 : ∀ (l : List Nat), (∀ b ∈ l, b < 256) →
    decB64 (encB64 l) = l
  | [], _ => rfl
  | [b0], h => by
    have hb0 : b0 < 256 := h b0 (by simp)
    have e1 := charToSextet_sextetToChar (b0 / 4) (by omega)
    have e2 := charToSextet_sextetToChar (b0 % 4 * 16) (by omega)
    simp only [encB64, decB64, if_true]
    rw [e1, e2]
    rw [show b0 / 4 * 4 + b0 % 4 * 16 / 16 = b0 from by omega]
  | [b0, b1], h => by
    have hb0 : b0 < 256 := h b0 (by simp)
    have hb1 : b1 < 256 := h b1 (by simp)
    have e1 := charToSextet_sextetToChar (b0 / 4) (by omega)
    have e2 := charToSextet_sextetToChar (b0 % 4 * 16 + b1 / 16) (by omega)
    have e3 := charToSextet_sextetToChar (b1 % 16 * 4) (by omega)
    have hne := sextetToChar_ne_pad (b1 % 16 * 4) (by omega)
    simp only [encB64, decB64]
    rw [if_neg hne]
    simp only [if_true]
    rw [e1, e2, e3]
    rw [show b0 / 4 * 4 + (b0 % 4 * 16 + b1 / 16) / 16 = b0 from by omega,
        show (b0 % 4 * 16 + b1 / 16) % 16 * 16 + b1 % 16 * 4 / 4 = b1 from by omega]
  | b0 :: b1 :: b2 :: rest, h => by
    have hb0 : b0 < 256 := h b0 (by simp)
    have hb1 : b1 < 256 := h b1 (by simp)
    have hb2 : b2 < 256 := h b2 (by simp)
    have e1 := charToSextet_sextetToChar (b0 / 4) (by omega)
    have e2 := charToSextet_sextetToChar (b0 % 4 * 16 + b1 / 16) (by omega)
    have e3 := charToSextet_sextetToChar (b1 % 16 * 4 + b2 / 64) (by omega)
    have e4 := charToSextet_sextetToChar (b2 % 64) (by omega)
    have hne3 := sextetToChar_ne_pad (b1 % 16 * 4 + b2 / 64) (by omega)
    have hne4 := sextetToChar_ne_pad (b2 % 64) (by omega)
    have hrec := decB64_encB64 rest (fun b hb => h b (by simp [hb]))
    simp only [encB64, decB64]
    rw [if_neg hne3, if_neg hne4, e1, e2, e3, e4, hrec]
    rw [show b0 / 4 * 4 + (b0 % 4 * 16 + b1 / 16) / 16 = b0 from by omega,
        show (b0 % 4 * 16 + b1 / 16) % 16 * 16 + (b1 % 16 * 4 + b2 / 64) / 4 = b1
          from by omega,
        show (b1 % 16 * 4 + b2 / 64) % 4 * 64 + b2 % 64 = b2 from by omega]

/-- C8: whenever the browser primitives satisfy their contracts — gunzip
inverts gzip chunk-wise, `TextDecoder` inverts `TextEncoder`, gzip emits
bytes, and `x` is JSON-serializable (`parse (stringify x) = some x`) —
`decompress (compress x)` returns exactly `x`.  The base64 stage
(`arrayBufferToBase64` / `base64ToArrayBuffer`) is modelled concretely and
needs no hypothesis beyond bytehood. -/
theorem sdk_c8_theorem {α : Type} (g : GzipCodec) (j : JsonCodec α)
    (t : TextCodec) (x : α)
    (hgzip : ∀ bs : List Nat,
      joinChunks (g.inflateChunks (joinChunks (g.deflateChunks bs))) = bs)
    (htext : ∀ s : String, t.decode (t.encode s) = s)
    (hbyte : ∀ b ∈ joinChunks (g.deflateChunks (t.encode (j.stringify x))), b < 256)
    (hjson : j.parse (j.stringify x) = some x) :
    decompress g j t (compress g j t x) = some x := by
  unfold decompress compress
  rw [show base64ToArrayBuffer
        (arrayBufferToBase64 (joinChunks (g.deflateChunks (t.encode (j.stringify x))))) =
      joinChunks (g.deflateChunks (t.encode (j.stringify x))) from
    decB64_encB64 _ hbyte]
  rw [hgzip, htext, hjson]

/-- C8 witness: the round-trip theorem applied to the fixture codecs and the
payload `true`. -/
theorem sdk_c8_witness :
    decompress gzipId jsonBool textAscii (compress gzipId jsonBool textAscii true)
      = some true := by
  apply sdk_c8_theorem
  · intro bs
    simp [gzipId, joinChunks]
  · intro s
    simp only [textAscii, List.map_map]
    cases s with
    | mk data =>
      congr 1
      simp only [Function.comp]
      exact (List.map_congr_left (fun c _ => Char.ofNat_toNat c)).trans
        (List.map_id' data)
  · decide
  · decide

/-- One unfolding step of the walk at an object/array reference. -/
theorem sanitizeObject_ptr (h : Heap) (gas : Nat) (a : Nat) :
    sanitizeObject h (gas + 1) (.ptr a) =
      match List.lookup a h with
      | none => .undef
      | some (.arr elems) => .arr (elems.map (fun e => sanitizeObject h gas e))
      | some (.obj fields) => .obj (fields.map (fun kv =>
          if isSensitiveKey kv.1 then (kv.1, SVal.str "[REDACTED]")
          else (kv.1, sanitizeObject h gas kv.2))) := rfl

/-- C9: (1) in every object, every field whose lowercased key contains a
sensitive substring — in particular `password` — is mapped to the literal
`"[REDACTED]"` before any recursion, whatever its value; (2) string values
containing an email have it replaced by `[EMAIL]` (shown on the spec's
`user@example.com` and in context); (3) the walk is total on the cyclic
one-node heap: it terminates inside the depth bound (10) and substitutes the
`"[Max Depth Reached]"` marker beyond it. -/
theorem sdk_c9_theorem (h : Heap) (a : Nat) (fields : List (String × JRef))
    (hl : List.lookup a h = some (.obj fields)) :
    (sanitizeData h a = .obj (fields.map (fun kv =>
      if isSensitiveKey kv.1 then (kv.1, SVal.str "[REDACTED]")
      else (kv.1, sanitizeObject h 10 kv.2)))) ∧
    (∀ (k : String) (v : JRef), isSensitiveKey k = true →
      (if isSensitiveKey k then (k, SVal.str "[REDACTED]")
       else (k, sanitizeObject h 10 v)) = (k, SVal.str "[REDACTED]")) ∧
    isSensitiveKey "password" = true ∧
    sanitizeString "user@example.com" = "[EMAIL]" ∧
    sanitizeString "Contact user@example.com for details" =
      "Contact [EMAIL] for details" ∧
    sanitizeData cyclicHeap 0 = nestSelf 11 := by
  refine ⟨?_, ?_, by decide, by decide, by decide, by rfl⟩
  · rw [show sanitizeData h a = sanitizeObject h (10 + 1) (.ptr a) from rfl,
      sanitizeObject_ptr, hl]
  · intro k v hk
    rw [if_pos hk]

/-- C9 witness: sanitizing the concrete heap `{password: "x"}` maps the
`password` key to `"[REDACTED]"`. -/
theorem sdk_c9_witness :
    sanitizeData [(0, .obj [("password", .str "x")])] 0 =
      .obj [("password", .str "[REDACTED]")] := by
  have h := (sdk_c9_theorem [(0, .obj [("password", .str "x")])] 0
    [("password", .str "x")] (by decide)).1
  rw [h]
  rfl

end SDK




